import Mathlib

/-!
Verification of the inventory-optimization core (model.py, app.py).

The weekly time series produced by pandas is modelled as a
list of optional reals: one entry per week of the weekly grid, with
missing weeks (NaN cells) represented by none.  Wherever a float
computation can produce a non-finite value (NaN or an infinity), the
embedded value has type Option real and none stands for the non-finite
outcome; arithmetic propagates none exactly as float arithmetic
propagates NaN.  The external library calls (scipy.stats.norm.ppf and
the statsmodels ExponentialSmoothing fit) are passed in as explicit
parameters, with a soundness predicate tying the ppf parameter to the
standard normal distribution.
-/

open MeasureTheory

noncomputable section

/-- The value of a pandas Date cell: either the raw value as loaded from the
file, or the result of pd.to_datetime applied to it.  The payload is the
denoted day, counted as an integer number of days; parsing does not change
the day it denotes, only the representation. -/
inductive DateVal where
  | raw : ℤ → DateVal
  | parsed : ℤ → DateVal
deriving DecidableEq, Repr

/-- The day denoted by a Date cell (pd.to_datetime output, as a day number).
Day numbers are chosen so that a day d is a Friday exactly when d % 7 = 4. -/
def toDatetime : DateVal → ℤ
  | .raw d => d
  | .parsed d => d

/-- One row of the raw sales data: columns Store, Dept, Date, Weekly_Sales. -/
structure SalesRecord where
  store : ℤ
  dept : ℤ
  date : DateVal
  weekly_sales : ℝ

/-- The non-missing values of a weekly series (what pandas skipna statistics
see). -/
def vals (ts : List (Option ℝ)) : List ℝ := ts.filterMap id

/-- Mean of a list of reals (sum divided by length). -/
def listMean (v : List ℝ) : ℝ := v.sum / v.length

/-- Embeds pandas Series.mean (skipna): the mean of the non-missing values,
none (NaN) when there is no non-missing value. -/
def seriesMean (ts : List (Option ℝ)) : Option ℝ :=
  if (vals ts).length = 0 then none
  else some (listMean (vals ts))

/-- Embeds pandas Series.std (skipna, ddof = 1): the sample standard
deviation of the non-missing values, none (NaN) when fewer than two values
are present. -/
def seriesStd (ts : List (Option ℝ)) : Option ℝ :=
  if (vals ts).length < 2 then none
  else some (Real.sqrt
    (((vals ts).map (fun x => (x - listMean (vals ts)) ^ 2)).sum
      / ((vals ts).length - 1)))

/-- Embeds numpy std (ddof = 0) applied to a float array that may hold NaN
entries: none (NaN) when the array is empty or holds any NaN. -/
def npStdList (xs : List (Option ℝ)) : Option ℝ :=
  if xs.length = 0 ∨ none ∈ xs then none
  else some (Real.sqrt
    (((vals xs).map (fun x => (x - listMean (vals xs)) ^ 2)).sum
      / (vals xs).length))

/-- Embeds numpy sqrt on a float: NaN (none) for a negative argument. -/
def npSqrt (x : ℝ) : Option ℝ :=
  if x < 0 then none else some (Real.sqrt x)

/-- The standard normal density kernel exp (-t^2 / 2). -/
def gauss (t : ℝ) : ℝ := Real.exp (-t ^ 2 / 2)

/-- The standard normal cumulative distribution function, written as the
usual integral.  This models the distribution behind the external
scipy.stats.norm, whose quantile function norm.ppf the source calls; scipy
itself is outside the repository, so the distribution is taken from its
mathematical definition. -/
def stdNormalCDF (x : ℝ) : ℝ :=
  (∫ t in Set.Iic x, gauss t) / Real.sqrt (2 * Real.pi)

/-- Soundness of a model of scipy.stats.norm.ppf: whenever the modelled ppf
returns a finite value z at s (none standing for a NaN or infinite float
result), z is a genuine standard normal quantile of s. -/
def PpfSound (ppf : ℝ → Option ℝ) : Prop :=
  ∀ s z, ppf s = some z → stdNormalCDF z = s

/-- The dict returned by calculate_safety_stock. -/
structure SafetyStockResult where
  safety_stock : Option ℝ
  reorder_point : Option ℝ
  average_daily_demand : Option ℝ
  demand_std_dev : Option ℝ
  service_level : ℝ
  lead_time_days : ℝ

/-- Embeds InventoryOptimizer.calculate_safety_stock (model.py lines
106-137).  The constructor of InventoryOptimizer only stores service_level,
so the attribute self.service_level is passed as a plain parameter; ppf
models scipy.stats.norm.ppf.  The Python body is straight-line float
arithmetic: no input is validated and no exception can be raised, so the
embedding is a total function into the result record, with none standing
for a NaN cell. -/
def calculate_safety_stock (ppf : ℝ → Option ℝ) (service_level : ℝ)
    (ts_data : List (Option ℝ)) (lead_time_days : ℝ) : SafetyStockResult :=
  let daily_demand := (seriesMean ts_data).map (fun m => m / 7)
  let demand_std := (seriesStd ts_data).map (fun s => s / 7)
  let z_score := ppf service_level
  let ss : Option ℝ := do
    let z ← z_score
    let s ← demand_std
    let r ← npSqrt lead_time_days
    pure (z * s * r)
  let rp : Option ℝ := do
    let d ← daily_demand
    let s ← ss
    pure (d * lead_time_days + s)
  { safety_stock := ss
    reorder_point := rp
    average_daily_demand := daily_demand
    demand_std_dev := demand_std
    service_level := service_level
    lead_time_days := lead_time_days }

/-- The outcome of the external statsmodels fit call, when it succeeds: the
in-sample fitted values (aligned with the input series) and, for each
requested step count n, the list of point forecasts returned by
model.forecast(steps = n).  statsmodels returns exactly n forecasts for a
request of n steps. -/
structure FittedModel where
  fittedvalues : List ℝ
  fcFun : ℕ → List ℝ

/-- A fitted model as the external library actually behaves: forecasting n
steps yields exactly n values. -/
def GoodModel (m : FittedModel) : Prop :=
  ∀ n, (m.fcFun n).length = n

/-- The dict returned by forecast_demand.  The point forecasts are plain
floats from the model; the bounds are forecast minus and plus a single
margin, which is NaN (none) when the z-score or the residual spread is
NaN. -/
structure ForecastData where
  forecast : List ℝ
  lower_bound : List (Option ℝ)
  upper_bound : List (Option ℝ)
  historical_mean : Option ℝ
  historical_std : Option ℝ

/-- A raised Python exception, as the Flask handler distinguishes them:
ValueError against every other exception class. -/
inductive PyError where
  | valueError : String → PyError
  | otherError : String → PyError
deriving DecidableEq, Repr

/-- Embeds InventoryOptimizer.forecast_demand (model.py lines 61-104).  The
external ExponentialSmoothing(...).fit() call is passed in as fit: ok m
when fitting succeeded with model m, error e when it raised an exception
whose message is e.  The try/except wrapper converts any exception raised
inside the block into ValueError("Error in forecasting: ..."); on success
the body is straight-line arithmetic and raises nothing.  residuals is the
aligned elementwise difference ts_data - fittedvalues, NaN at missing
weeks; std_error is numpy std of it and the margin is z times std_error,
applied uniformly to every forecast step. -/
def forecast_demand (ppf : ℝ → Option ℝ) (service_level : ℝ)
    (ts_data : List (Option ℝ)) (fit : Except String FittedModel)
    (forecast_periods : ℕ) : Except PyError ForecastData :=
  match fit with
  | .error e => .error (.valueError ("Error in forecasting: " ++ e))
  | .ok m =>
    let fc := m.fcFun forecast_periods
    let residuals :=
      List.zipWith (fun a b => Option.map (fun x => x - b) a) ts_data m.fittedvalues
    let std_error := npStdList residuals
    let z_score := ppf ((1 + service_level) / 2)
    let margin : Option ℝ := do
      let z ← z_score
      let s ← std_error
      pure (z * s)
    .ok { forecast := fc
          lower_bound := fc.map (fun x => margin.map (fun mg => x - mg))
          upper_bound := fc.map (fun x => margin.map (fun mg => x + mg))
          historical_mean := seriesMean ts_data
          historical_std := seriesStd ts_data }

/-- The dict returned by estimate_cost_savings. -/
structure CostSavings where
  current_safety_stock : Option ℝ
  optimized_safety_stock : Option ℝ
  reduction : Option ℝ
  reduction_percentage : Option ℝ

/-- Embeds InventoryOptimizer.estimate_cost_savings (model.py lines
139-165).  Note that the optimized figure calls calculate_safety_stock with
the DEFAULT lead time of 7 days, whatever lead time the surrounding call
used.  A float division whose denominator is zero yields an infinity or
NaN, both modelled by none. -/
def estimate_cost_savings (ppf : ℝ → Option ℝ) (service_level : ℝ)
    (ts_data : List (Option ℝ)) (current_buffer_multiplier : ℝ) : CostSavings :=
  let current := (seriesMean ts_data).map (fun m => m * current_buffer_multiplier)
  let optimized :=
    (calculate_safety_stock ppf service_level ts_data 7).safety_stock.map
      (fun s => s * 7)
  let reduction : Option ℝ := do
    let c ← current
    let o ← optimized
    pure (c - o)
  let reduction_percentage : Option ℝ := do
    let r ← reduction
    let c ← current
    if c = 0 then none else pure (r / c * 100)
  { current_safety_stock := current
    optimized_safety_stock := optimized
    reduction := reduction
    reduction_percentage := reduction_percentage }

/-- The summary block of get_recommendations. -/
structure Summary where
  avg_weekly_sales : Option ℝ
  std_weekly_sales : Option ℝ
  coefficient_of_variation : Option ℝ
  data_points : ℕ

/-- The dict returned by get_recommendations. -/
structure Recommendation where
  forecast : ForecastData
  safety_stock : SafetyStockResult
  cost_savings : CostSavings
  summary : Summary

/-- Embeds InventoryOptimizer.get_recommendations (model.py lines 167-193).
forecast_demand runs first, so a fitting failure aborts the whole call; the
two stock computations and the summary never raise.  data_points is
len(ts_data), the full grid length including missing weeks, while the mean
and standard deviation skip missing values. -/
def get_recommendations (ppf : ℝ → Option ℝ) (service_level : ℝ)
    (ts_data : List (Option ℝ)) (fit : Except String FittedModel)
    (forecast_periods : ℕ) (lead_time_days : ℝ) :
    Except PyError Recommendation :=
  match forecast_demand ppf service_level ts_data fit forecast_periods with
  | .error e => .error e
  | .ok fd =>
    .ok { forecast := fd
          safety_stock := calculate_safety_stock ppf service_level ts_data lead_time_days
          cost_savings := estimate_cost_savings ppf service_level ts_data 1.5
          summary :=
            { avg_weekly_sales := seriesMean ts_data
              std_weekly_sales := seriesStd ts_data
              coefficient_of_variation := do
                let s ← seriesStd ts_data
                let m ← seriesMean ts_data
                if m = 0 then none else pure (s / m * 100)
              data_points := ts_data.length } }

/-- Embeds the pandas asfreq with a week-ending-Friday frequency applied to
the filtered, date-sorted rows: the new index is every Friday from the
first to the last index date, each grid date taking the value of the row
with that exact date, and NaN (none) where no row matches. -/
def asfreqWFri (rows : List SalesRecord) : List (Option ℝ) :=
  match rows.map (fun r => toDatetime r.date) with
  | [] => []
  | d :: ds =>
    let lastD := (d :: ds).getLastD 0
    let f0 := d + (4 - d) % 7
    if lastD < f0 then []
    else
      (List.range ((lastD - f0) / 7 + 1).toNat).map (fun i =>
        (rows.find? (fun r => toDatetime r.date == f0 + 7 * i)).map
          (fun r => r.weekly_sales))

/-- Embeds InventoryOptimizer.prepare_data (model.py lines 32-59).  The
first line of the Python body assigns the parsed Date column back into the
DataFrame of the CALLER, so the embedding returns the post-call state of
the record collection as the first component.  The filtered rows are
re-indexed by date onto the Friday weekly grid; pandas reindexing raises
ValueError when the date index holds duplicates, which the error branch
records.  Zero matching rows give the empty series, not an error. -/
def prepare_data (records : List SalesRecord) (store_id dept_id : ℤ) :
    List SalesRecord × Except String (List (Option ℝ)) :=
  let records2 := records.map (fun r => { r with date := DateVal.parsed (toDatetime r.date) })
  let filtered := records2.filter (fun r => r.store == store_id && r.dept == dept_id)
  let sorted := filtered.mergeSort (fun a b => toDatetime a.date ≤ toDatetime b.date)
  if (sorted.map (fun r => toDatetime r.date)).Nodup then
    (records2, .ok (asfreqWFri sorted))
  else
    (records2, .error "cannot reindex on an axis with duplicate labels")

/-- Embeds the except clauses of the /predict handler (app.py lines
94-103): a ValueError becomes HTTP 400 with label Validation error, every
other exception becomes HTTP 500 with label Internal server error. -/
def predictStatus : PyError → ℕ × String
  | .valueError _ => (400, "Validation error")
  | .otherError _ => (500, "Internal server error")

/-- The message carried by a raised exception. -/
def errMessage : PyError → String
  | .valueError m => m
  | .otherError m => m

/-- The response of the /predict handler, as far as the core flow is
concerned. -/
inductive PredictResponse where
  | noData : ℤ → ℤ → PredictResponse
  | success : Recommendation → PredictResponse
  | failure : ℕ → String → String → PredictResponse

/-- Embeds the body of the /predict handler (app.py lines 29-103) from the
point where the data is loaded: prepare the series, return the 404 No data
response when it is empty, and otherwise run get_recommendations, mapping a
raised exception through the except clauses.  An exception raised by the
pandas reindex inside prepare_data is a ValueError and lands in the 400
branch. -/
def predict (records : List SalesRecord) (store_id dept_id : ℤ)
    (ppf : ℝ → Option ℝ) (service_level : ℝ) (fit : Except String FittedModel)
    (forecast_periods : ℕ) (lead_time_days : ℝ) : PredictResponse :=
  match (prepare_data records store_id dept_id).2 with
  | .error e => .failure 400 "Validation error" e
  | .ok ts_data =>
    if ts_data.length = 0 then .noData store_id dept_id
    else
      match get_recommendations ppf service_level ts_data fit forecast_periods
          lead_time_days with
      | .error e => .failure (predictStatus e).1 (predictStatus e).2 (errMessage e)
      | .ok rec => .success rec

end

/-! Facts about the standard normal distribution function used to reason
about sound models of norm.ppf. -/

lemma gauss_eq : gauss = fun t => Real.exp (-(1 / 2) * t ^ 2) := by
  funext t
  unfold gauss
  congr 1
  ring

lemma gauss_pos (t : ℝ) : 0 < gauss t := Real.exp_pos _

lemma integrable_gauss : MeasureTheory.Integrable gauss := by
  rw [gauss_eq]
  exact integrable_exp_neg_mul_sq (by norm_num)

lemma integrableOn_gauss (s : Set ℝ) : MeasureTheory.IntegrableOn gauss s :=
  integrable_gauss.integrableOn

lemma integral_gauss_total : (∫ t, gauss t) = Real.sqrt (2 * Real.pi) := by
  rw [gauss_eq]
  rw [integral_gaussian (1 / 2)]
  congr 1
  ring

lemma sqrt_two_pi_pos : 0 < Real.sqrt (2 * Real.pi) :=
  Real.sqrt_pos.mpr (by positivity)

lemma support_gauss : Function.support gauss = Set.univ := by
  ext t
  simp [Function.mem_support, (gauss_pos t).ne']

lemma setIntegral_gauss_pos {s : Set ℝ} (_hs : MeasurableSet s)
    (hv : 0 < volume s) : 0 < ∫ t in s, gauss t := by
  refine (MeasureTheory.setIntegral_pos_iff_support_of_nonneg_ae ?_ (integrableOn_gauss s)).mpr ?_
  · exact Filter.Eventually.of_forall (fun t => (gauss_pos t).le)
  · rw [support_gauss, Set.univ_inter]
    exact hv

lemma integral_gauss_Iic_pos (x : ℝ) : 0 < ∫ t in Set.Iic x, gauss t :=
  setIntegral_gauss_pos measurableSet_Iic (by rw [Real.volume_Iic]; exact ENNReal.zero_lt_top)

lemma stdNormalCDF_pos (x : ℝ) : 0 < stdNormalCDF x :=
  div_pos (integral_gauss_Iic_pos x) sqrt_two_pi_pos

lemma integral_gauss_Iic_add_Ioi (x : ℝ) :
    (∫ t in Set.Iic x, gauss t) + (∫ t in Set.Ioi x, gauss t) = Real.sqrt (2 * Real.pi) := by
  have h := MeasureTheory.integral_add_compl
    (measurableSet_Iic : MeasurableSet (Set.Iic x)) integrable_gauss
  rw [Set.compl_Iic] at h
  rw [h]
  exact integral_gauss_total

lemma stdNormalCDF_lt_one (x : ℝ) : stdNormalCDF x < 1 := by
  unfold stdNormalCDF
  rw [div_lt_one sqrt_two_pi_pos]
  have h1 := integral_gauss_Iic_add_Ioi x
  have h2 : 0 < ∫ t in Set.Ioi x, gauss t :=
    setIntegral_gauss_pos measurableSet_Ioi (by rw [Real.volume_Ioi]; exact ENNReal.zero_lt_top)
  linarith

lemma stdNormalCDF_strictMono : StrictMono stdNormalCDF := by
  intro a b hab
  unfold stdNormalCDF
  have hsplit : (∫ t in Set.Iic b, gauss t)
      = (∫ t in Set.Iic a, gauss t) + (∫ t in Set.Ioc a b, gauss t) := by
    rw [← MeasureTheory.setIntegral_union (Set.Iic_disjoint_Ioc le_rfl) measurableSet_Ioc
      (integrableOn_gauss _) (integrableOn_gauss _)]
    rw [Set.Iic_union_Ioc_eq_Iic hab.le]
  have hpos : 0 < ∫ t in Set.Ioc a b, gauss t := by
    refine setIntegral_gauss_pos measurableSet_Ioc ?_
    rw [Real.volume_Ioc]
    simp [sub_pos.mpr hab]
  have : (∫ t in Set.Iic a, gauss t) < ∫ t in Set.Iic b, gauss t := by linarith
  gcongr

lemma gauss_neg_eq (t : ℝ) : gauss (-t) = gauss t := by
  unfold gauss
  congr 1
  ring

lemma stdNormalCDF_zero : stdNormalCDF 0 = 1 / 2 := by
  have hrefl : (∫ t in Set.Iic (0 : ℝ), gauss t) = ∫ t in Set.Ioi (0 : ℝ), gauss t := by
    have h := integral_comp_neg_Iic (0 : ℝ) gauss
    simp only [gauss_neg_eq, neg_zero] at h
    exact h
  have hsum := integral_gauss_Iic_add_Ioi 0
  unfold stdNormalCDF
  rw [← hrefl] at hsum
  rw [show (∫ t in Set.Iic (0 : ℝ), gauss t) = Real.sqrt (2 * Real.pi) / 2 by linarith]
  field_simp
  ring

lemma ppf_pos_of_half_lt {ppf : ℝ → Option ℝ} (hsound : PpfSound ppf)
    {s z : ℝ} (hz : ppf s = some z) (hs : 1 / 2 < s) : 0 < z := by
  by_contra hle
  push_neg at hle
  have h1 : stdNormalCDF z ≤ stdNormalCDF 0 := stdNormalCDF_strictMono.monotone hle
  rw [stdNormalCDF_zero, hsound s z hz] at h1
  linarith

lemma ppf_nonneg_of_half_le {ppf : ℝ → Option ℝ} (hsound : PpfSound ppf)
    {s z : ℝ} (hz : ppf s = some z) (hs : 1 / 2 ≤ s) : 0 ≤ z := by
  by_contra hlt
  push_neg at hlt
  have h1 : stdNormalCDF z < stdNormalCDF 0 := stdNormalCDF_strictMono hlt
  rw [stdNormalCDF_zero, hsound s z hz] at h1
  linarith

/-! Small facts about series statistics. -/

lemma vals_length_le (ts : List (Option ℝ)) : (vals ts).length ≤ ts.length := by
  unfold vals
  exact List.length_filterMap_le id ts

lemma vals_length_lt_of_none_mem {ts : List (Option ℝ)} (h : none ∈ ts) :
    (vals ts).length < ts.length := by
  induction ts with
  | nil => simp at h
  | cons a t ih =>
    rcases List.mem_cons.mp h with hhd | htl
    · have hv : vals (a :: t) = vals t := by
        unfold vals
        exact List.filterMap_cons_none (by rw [← hhd]; rfl)
      rw [hv, List.length_cons]
      exact Nat.lt_succ_of_le (vals_length_le t)
    · rcases a with _ | x
      · have hv : vals (none :: t) = vals t := by
          unfold vals
          exact List.filterMap_cons_none rfl
        rw [hv, List.length_cons]
        exact Nat.lt_succ_of_le (vals_length_le t)
      · have hv : vals (some x :: t) = x :: vals t := by
          unfold vals
          exact List.filterMap_cons_some rfl
        rw [hv, List.length_cons, List.length_cons]
        exact Nat.succ_lt_succ (ih htl)

lemma seriesStd_some {ts : List (Option ℝ)} {s : ℝ} (h : seriesStd ts = some s) :
    2 ≤ (vals ts).length ∧
    s = Real.sqrt ((((vals ts).map (fun x => (x - listMean (vals ts)) ^ 2)).sum)
      / ((vals ts).length - 1)) := by
  unfold seriesStd at h
  by_cases hlen : (vals ts).length < 2
  · rw [if_pos hlen] at h
    exact absurd h (by simp)
  · rw [if_neg hlen] at h
    exact ⟨not_lt.mp hlen, (Option.some.injEq _ _ ▸ h).symm⟩

lemma listMean_nonneg {v : List ℝ} (h : ∀ x ∈ v, 0 ≤ x) : 0 ≤ listMean v := by
  unfold listMean
  exact div_nonneg (List.sum_nonneg h) (Nat.cast_nonneg _)

/-- C1: for a series with defined weekly mean m and weekly standard deviation
s, a finite z-score z at the service level, and a non-negative lead time L,
calculate_safety_stock returns exactly average_daily_demand = m / 7,
demand_std_dev = s / 7, safety_stock = z * (s / 7) * sqrt L and
reorder_point = (m / 7) * L + safety_stock; in particular at L = 0 the
reorder point equals the safety stock. -/
theorem C1_safety_stock_formulas (ppf : ℝ → Option ℝ) (sl : ℝ)
    (ts : List (Option ℝ)) (L m s z : ℝ)
    (hm : seriesMean ts = some m) (hs : seriesStd ts = some s)
    (hz : ppf sl = some z) (hL : 0 ≤ L) :
    (calculate_safety_stock ppf sl ts L).average_daily_demand = some (m / 7) ∧
    (calculate_safety_stock ppf sl ts L).demand_std_dev = some (s / 7) ∧
    (calculate_safety_stock ppf sl ts L).safety_stock
      = some (z * (s / 7) * Real.sqrt L) ∧
    (calculate_safety_stock ppf sl ts L).reorder_point
      = some (m / 7 * L + z * (s / 7) * Real.sqrt L) ∧
    (L = 0 → (calculate_safety_stock ppf sl ts L).reorder_point
      = (calculate_safety_stock ppf sl ts L).safety_stock) := by
  have hsq : npSqrt L = some (Real.sqrt L) := by
    unfold npSqrt
    rw [if_neg (not_lt.mpr hL)]
  refine ⟨?_, ?_, ?_, ?_, ?_⟩
  · simp [calculate_safety_stock, hm]
  · simp [calculate_safety_stock, hs]
  · simp [calculate_safety_stock, hm, hs, hz, hsq]
  · simp [calculate_safety_stock, hm, hs, hz, hsq]
  · intro hL0
    subst hL0
    simp [calculate_safety_stock, hm, hs, hz, hsq]

/-- Witness for C1 at a concrete input: the two-point series 14, 14 has mean
14 and standard deviation 0, and with z = 2 and lead time 4 the formulas
evaluate as stated. -/
theorem C1_safety_stock_formulas_witness :
    seriesMean [some 14, some 14] = some 14 ∧
    seriesStd [some 14, some 14] = some 0 ∧
    (fun _ : ℝ => some (2 : ℝ)) 0.95 = some 2 ∧
    (0 : ℝ) ≤ 4 ∧
    (calculate_safety_stock (fun _ => some 2) 0.95 [some 14, some 14] 4).average_daily_demand
      = some (14 / 7) ∧
    (calculate_safety_stock (fun _ => some 2) 0.95 [some 14, some 14] 4).demand_std_dev
      = some (0 / 7) ∧
    (calculate_safety_stock (fun _ => some 2) 0.95 [some 14, some 14] 4).safety_stock
      = some (2 * (0 / 7) * Real.sqrt 4) ∧
    (calculate_safety_stock (fun _ => some 2) 0.95 [some 14, some 14] 4).reorder_point
      = some (14 / 7 * 4 + 2 * (0 / 7) * Real.sqrt 4) := by
  have hv : vals [some (14 : ℝ), some 14] = [14, 14] := by simp [vals]
  have hm : seriesMean [some 14, some 14] = some 14 := by
    unfold seriesMean
    rw [hv]
    norm_num [listMean]
  have hs : seriesStd [some 14, some 14] = some 0 := by
    unfold seriesStd
    rw [hv]
    norm_num [listMean]
  have h := C1_safety_stock_formulas (fun _ => some 2) 0.95 [some 14, some 14] 4 14 0 2
    hm hs rfl (by norm_num)
  exact ⟨hm, hs, rfl, by norm_num, h.1, h.2.1, h.2.2.1, h.2.2.2.1⟩

/-- C4: contrary to the claim, a series with only missing values does not
make the policy calculator fail with a validation error:
calculate_safety_stock is straight-line float arithmetic with no check, and
at the all-missing series it returns a populated result whose statistics
are all NaN (none).  The claimed behaviour is the one the spec mandates;
the code propagates NaN instead. -/
theorem C4_all_missing_series_returns_nan :
    calculate_safety_stock (fun _ => some 1) 0.95 [none] 7
      = { safety_stock := none
          reorder_point := none
          average_daily_demand := none
          demand_std_dev := none
          service_level := 0.95
          lead_time_days := 7 } := by
  have hmean : seriesMean [none] = none := by simp [seriesMean, vals]
  have hstd : seriesStd [none] = none := by simp [seriesStd, vals]
  simp [calculate_safety_stock, hmean, hstd]

/-- C6: contrary to the claim, no out-of-range parameter is rejected: a
service level of 1.5 flows into the result record and merely turns the
z-score, hence the safety stock, into NaN (scipy ppf returns NaN outside
the unit interval, reflected by the hypothesis on ppf); a negative lead
time of -3 flows into the result and turns the safety stock into NaN via
numpy sqrt; and a zero forecast horizon yields an ok result with empty
forecast sequences instead of a validation error. -/
theorem C6_no_parameter_validation (ppf : ℝ → Option ℝ) (m : FittedModel)
    (hppf : ppf 1.5 = none) (hm0 : m.fcFun 0 = []) :
    (calculate_safety_stock ppf 1.5 [some 1, some 2, some 3] 7).safety_stock = none ∧
    (calculate_safety_stock ppf 1.5 [some 1, some 2, some 3] 7).service_level = 1.5 ∧
    (calculate_safety_stock ppf 0.95 [some 1, some 2, some 3] (-3)).safety_stock = none ∧
    (calculate_safety_stock ppf 0.95 [some 1, some 2, some 3] (-3)).lead_time_days = -3 ∧
    (∀ fd, forecast_demand ppf 0.95 [some 1, some 2, some 3] (.ok m) 0 = .ok fd →
      fd.forecast = []) := by
  refine ⟨?_, rfl, ?_, rfl, ?_⟩
  · simp [calculate_safety_stock, hppf]
  · have hsq : npSqrt (-3) = none := by
      unfold npSqrt
      rw [if_pos (by norm_num)]
    rcases hz : ppf 0.95 with _ | z
    · simp [calculate_safety_stock, hz]
    · simp [calculate_safety_stock, hz, hsq]
  · intro fd hfd
    simp only [forecast_demand, Except.ok.injEq] at hfd
    rw [← hfd]
    simp [hm0]

/-- Witness for C6 at a concrete ppf (none everywhere, sound vacuously,
and in particular NaN at 1.5 like scipy) and a concrete fitted model. -/
theorem C6_no_parameter_validation_witness :
    ((fun _ : ℝ => (none : Option ℝ)) 1.5 = none) ∧
    (FittedModel.mk [] (fun n => List.replicate n 0)).fcFun 0 = [] ∧
    (calculate_safety_stock (fun _ => none) 1.5 [some 1, some 2, some 3] 7).safety_stock
      = none ∧
    (calculate_safety_stock (fun _ => none) 0.95 [some 1, some 2, some 3] (-3)).safety_stock
      = none := by
  have h := C6_no_parameter_validation (fun _ => none)
    (FittedModel.mk [] (fun n => List.replicate n 0)) rfl rfl
  exact ⟨rfl, rfl, h.1, h.2.2.1⟩

/-- The claim C7 as stated: an error coming out of a failed model fit is
never mapped by the /predict handler to the 400 Validation error response,
so that callers can tell internal failures apart from bad input. -/
def C7Claim : Prop :=
  ∀ (ppf : ℝ → Option ℝ) (sl : ℝ) (ts : List (Option ℝ)) (cause : String)
    (steps : ℕ) (e : PyError),
    forecast_demand ppf sl ts (.error cause) steps = .error e →
    predictStatus e ≠ (400, "Validation error")

/-- C7 counterexample: a purely numerical fitting failure is wrapped into
ValueError by the bare except clause of forecast_demand, and the handler
maps every ValueError to the 400 Validation error response, so the claimed
distinction does not exist. -/
theorem C7_counterexample : ¬ C7Claim := by
  intro h
  exact h (fun _ => none) 0.95 [] "LinAlgError: SVD did not converge" 12
    (.valueError ("Error in forecasting: " ++ "LinAlgError: SVD did not converge"))
    rfl rfl

/-- C7 amended: whatever the cause of the fitting failure, forecast_demand
re-raises it as a ValueError carrying the cause in its message, and the
handler reports it as a 400 Validation error; internal failures are thus
uniformly reclassified as validation errors (and no partially populated
result is produced, the call having no ok outcome in that case). -/
theorem C7_amended (ppf : ℝ → Option ℝ) (sl : ℝ) (ts : List (Option ℝ))
    (cause : String) (steps : ℕ) :
    forecast_demand ppf sl ts (.error cause) steps
      = .error (.valueError ("Error in forecasting: " ++ cause)) ∧
    predictStatus (.valueError ("Error in forecasting: " ++ cause))
      = (400, "Validation error") :=
  ⟨rfl, rfl⟩

/-- The claim C9 as stated: prepare_data leaves the record collection of
the caller unchanged, every field of every record keeping its original
value. -/
def C9Claim : Prop :=
  ∀ (records : List SalesRecord) (store_id dept_id : ℤ),
    (prepare_data records store_id dept_id).1 = records

/-- C9 counterexample: the first statement of prepare_data assigns the
parsed Date column back into the DataFrame of the caller, so after the
call the Date cell of the single record of this concrete collection is the
parsed value, no longer the raw original. -/
theorem C9_counterexample : ¬ C9Claim := by
  intro h
  have h2 := h [⟨1, 1, .raw 4, 100⟩] 1 1
  simp [prepare_data] at h2

lemma prepare_data_fst (records : List SalesRecord) (store_id dept_id : ℤ) :
    (prepare_data records store_id dept_id).1
      = records.map (fun r => { r with date := DateVal.parsed (toDatetime r.date) }) := by
  simp only [prepare_data]
  split <;> rfl

/-- C9 amended: after a call to prepare_data the collection of the caller
has the same length, and every record keeps its store, dept and
weekly_sales fields and the day its Date denotes; only the representation
of the Date cell has changed, to the parsed form of the original date.
The series consumers (forecasting and the policy calculations) take the
series by value and return fresh results, modifying nothing. -/
theorem C9_records_mutated_only_by_date_parsing (records : List SalesRecord)
    (store_id dept_id : ℤ) :
    ((prepare_data records store_id dept_id).1).length = records.length ∧
    ∀ i, i < records.length →
      (((prepare_data records store_id dept_id).1).getD i ⟨0, 0, .raw 0, 0⟩).store
          = (records.getD i ⟨0, 0, .raw 0, 0⟩).store ∧
      (((prepare_data records store_id dept_id).1).getD i ⟨0, 0, .raw 0, 0⟩).dept
          = (records.getD i ⟨0, 0, .raw 0, 0⟩).dept ∧
      (((prepare_data records store_id dept_id).1).getD i ⟨0, 0, .raw 0, 0⟩).weekly_sales
          = (records.getD i ⟨0, 0, .raw 0, 0⟩).weekly_sales ∧
      toDatetime ((((prepare_data records store_id dept_id).1).getD i ⟨0, 0, .raw 0, 0⟩).date)
          = toDatetime ((records.getD i ⟨0, 0, .raw 0, 0⟩).date) ∧
      (((prepare_data records store_id dept_id).1).getD i ⟨0, 0, .raw 0, 0⟩).date
          = DateVal.parsed (toDatetime ((records.getD i ⟨0, 0, .raw 0, 0⟩).date)) := by
  rw [prepare_data_fst]
  refine ⟨List.length_map _ _, ?_⟩
  intro i hi
  have hmap : (records.map
        (fun r => { r with date := DateVal.parsed (toDatetime r.date) })).getD i
          ⟨0, 0, .raw 0, 0⟩
      = { records[i] with date := DateVal.parsed (toDatetime (records[i]).date) } := by
    rw [List.getD_eq_getElem?_getD, List.getElem?_map, List.getElem?_eq_getElem hi]
    rfl
  have hrec : records.getD i ⟨0, 0, .raw 0, 0⟩ = records[i] := by
    rw [List.getD_eq_getElem?_getD, List.getElem?_eq_getElem hi]
    rfl
  rw [hmap, hrec]
  exact ⟨rfl, rfl, rfl, rfl, rfl⟩

/-- Witness for the amended C9 at a concrete single-record collection. -/
theorem C9_records_mutated_only_by_date_parsing_witness :
    ((prepare_data [⟨1, 1, .raw 4, 100⟩] 1 1).1).length = 1 ∧
    (((prepare_data [⟨1, 1, .raw 4, 100⟩] 1 1).1).getD 0 ⟨0, 0, .raw 0, 0⟩).store = 1 ∧
    (((prepare_data [⟨1, 1, .raw 4, 100⟩] 1 1).1).getD 0 ⟨0, 0, .raw 0, 0⟩).weekly_sales = 100 ∧
    toDatetime ((((prepare_data [⟨1, 1, .raw 4, 100⟩] 1 1).1).getD 0 ⟨0, 0, .raw 0, 0⟩).date) = 4 ∧
    (((prepare_data [⟨1, 1, .raw 4, 100⟩] 1 1).1).getD 0 ⟨0, 0, .raw 0, 0⟩).date
      = DateVal.parsed 4 := by
  have h := C9_records_mutated_only_by_date_parsing [⟨1, 1, .raw 4, 100⟩] 1 1
  have h0 := h.2 0 (by norm_num)
  exact ⟨h.1, h0.1, h0.2.2.1, h0.2.2.2.1, h0.2.2.2.2⟩

/-- C8: when no record matches the requested store and department,
prepare_data returns the empty series as an ok value (no exception), and
the /predict handler sees the zero length and answers the No data response
without reaching forecasting or the policy calculations. -/
theorem C8_no_match_empty_series (records : List SalesRecord) (store_id dept_id : ℤ)
    (hmatch : ∀ r ∈ records, ¬(r.store = store_id ∧ r.dept = dept_id)) :
    (prepare_data records store_id dept_id).2 = .ok [] ∧
    ∀ (ppf : ℝ → Option ℝ) (sl : ℝ) (fit : Except String FittedModel)
      (steps : ℕ) (L : ℝ),
      predict records store_id dept_id ppf sl fit steps L
        = .noData store_id dept_id := by
  have hfil : (records.map
        (fun r => { r with date := DateVal.parsed (toDatetime r.date) })).filter
          (fun r => r.store == store_id && r.dept == dept_id) = [] := by
    rw [List.filter_eq_nil_iff]
    intro a ha
    obtain ⟨r, hr, rfl⟩ := List.mem_map.mp ha
    have := hmatch r hr
    simp only [Bool.and_eq_true, beq_iff_eq]
    tauto
  have hprep : (prepare_data records store_id dept_id).2 = .ok [] := by
    unfold prepare_data
    simp only [hfil]
    simp [asfreqWFri]
  refine ⟨hprep, ?_⟩
  intro ppf sl fit steps L
  unfold predict
  rw [hprep]
  rfl

/-- Witness for C8: a concrete collection with a single record for store 1,
department 1, queried for store 99, department 99. -/
theorem C8_no_match_empty_series_witness :
    (∀ r ∈ [(⟨1, 1, .raw 0, 5⟩ : SalesRecord)], ¬(r.store = 99 ∧ r.dept = 99)) ∧
    (prepare_data [⟨1, 1, .raw 0, 5⟩] 99 99).2 = .ok [] ∧
    predict [⟨1, 1, .raw 0, 5⟩] 99 99 (fun _ => none) 0.95
      (.ok ⟨[], fun n => List.replicate n 0⟩) 12 7 = .noData 99 99 := by
  have hmatch : ∀ r ∈ [(⟨1, 1, .raw 0, 5⟩ : SalesRecord)], ¬(r.store = 99 ∧ r.dept = 99) := by
    intro r hr
    rw [List.mem_singleton] at hr
    subst hr
    simp
  have h := C8_no_match_empty_series [⟨1, 1, .raw 0, 5⟩] 99 99 hmatch
  exact ⟨hmatch, h.1, h.2 _ _ _ _ _⟩

/-- C10: in the summary block of a successful get_recommendations call,
data_points is the full length of the weekly grid series (missing weeks
included), while the mean and standard deviation are computed over the
non-missing values only; hence for a series with at least one gap,
data_points strictly exceeds the number of values entering the mean and
standard deviation. -/
theorem C10_data_points_count_missing_weeks (ppf : ℝ → Option ℝ) (sl : ℝ)
    (ts : List (Option ℝ)) (fit : Except String FittedModel) (steps : ℕ)
    (L : ℝ) (rec : Recommendation)
    (hrec : get_recommendations ppf sl ts fit steps L = .ok rec) :
    rec.summary.data_points = ts.length ∧
    (∀ m0, rec.summary.avg_weekly_sales = some m0 →
      m0 = (vals ts).sum / (vals ts).length) ∧
    (∀ s0, rec.summary.std_weekly_sales = some s0 →
      s0 = Real.sqrt ((((vals ts).map (fun x => (x - listMean (vals ts)) ^ 2)).sum)
        / ((vals ts).length - 1))) ∧
    (none ∈ ts → (vals ts).length < rec.summary.data_points) := by
  rcases fit with e | m
  · exact absurd hrec (by simp [get_recommendations, forecast_demand])
  · simp only [get_recommendations, forecast_demand, Except.ok.injEq] at hrec
    subst hrec
    refine ⟨rfl, ?_, ?_, ?_⟩
    · intro m0 hm0
      simp only [seriesMean] at hm0
      by_cases hlen : (vals ts).length = 0
      · rw [if_pos hlen] at hm0
        exact absurd hm0 (by simp)
      · rw [if_neg hlen] at hm0
        rw [← Option.some.inj hm0]
        rfl
    · intro s0 hs0
      simp only [seriesStd] at hs0
      by_cases hlen : (vals ts).length < 2
      · rw [if_pos hlen] at hs0
        exact absurd hs0 (by simp)
      · rw [if_neg hlen] at hs0
        exact (Option.some.inj hs0).symm
    · intro hnone
      exact vals_length_lt_of_none_mem hnone

/-- Witness for C10: a three-week series with a missing middle week has
data_points 3 while only two values enter the statistics. -/
theorem C10_data_points_count_missing_weeks_witness :
    (get_recommendations (fun _ => some 1) 0.95 [some 1, none, some 3]
        (.ok ⟨[0, 0, 0], fun n => List.replicate n 0⟩) 1 7).map
      (fun r => r.summary.data_points) = .ok 3 ∧
    (vals [some 1, none, some 3]).length = 2 := by
  obtain ⟨rec, hrec⟩ : ∃ rec, get_recommendations (fun _ => some 1) 0.95
      [some 1, none, some 3] (.ok ⟨[0, 0, 0], fun n => List.replicate n 0⟩) 1 7
        = .ok rec := ⟨_, rfl⟩
  have h := C10_data_points_count_missing_weeks (fun _ => some 1) 0.95
    [some 1, none, some 3] (.ok ⟨[0, 0, 0], fun n => List.replicate n 0⟩) 1 7 rec hrec
  constructor
  · rw [hrec]
    simp only [Except.map]
    rw [h.1]
    rfl
  · simp [vals]

/-- A sound model of norm.ppf defined at the single probability whose
standard normal quantile is -1. -/
noncomputable def ppfAtNegOne : ℝ → Option ℝ :=
  fun s => if s = stdNormalCDF (-1) then some (-1) else none

lemma ppfAtNegOne_sound : PpfSound ppfAtNegOne := by
  intro s z h
  unfold ppfAtNegOne at h
  by_cases hc : s = stdNormalCDF (-1)
  · rw [if_pos hc] at h
    rw [← Option.some.inj h, hc]
  · rw [if_neg hc] at h
    exact absurd h (by simp)

lemma ppfAtNegOne_eval : ppfAtNegOne (stdNormalCDF (-1)) = some (-1) := by
  unfold ppfAtNegOne
  rw [if_pos rfl]

lemma vals_zero_fourteen : vals [some 0, some 14] = [0, 14] := by simp [vals]

lemma seriesMean_zero_fourteen : seriesMean [some 0, some 14] = some 7 := by
  unfold seriesMean
  rw [vals_zero_fourteen]
  norm_num [listMean]

lemma seriesStd_zero_fourteen : seriesStd [some 0, some 14] = some (Real.sqrt 98) := by
  unfold seriesStd
  rw [vals_zero_fourteen]
  norm_num [listMean]

/-- The claim C3 as stated: in every successful get_recommendations call,
the cost savings block has current = weekly mean times 1.5, optimized equal
to the safety stock of the same call (same lead time) times 7, reduction =
current - optimized and reduction_percentage = reduction / current * 100,
with no clamping at zero. -/
def C3Claim : Prop :=
  ∀ (ppf : ℝ → Option ℝ), PpfSound ppf →
    ∀ (sl : ℝ) (ts : List (Option ℝ)) (fit : Except String FittedModel)
      (steps : ℕ) (L : ℝ) (rec : Recommendation),
      get_recommendations ppf sl ts fit steps L = .ok rec →
      rec.cost_savings.current_safety_stock
          = (seriesMean ts).map (fun m => m * 1.5) ∧
      rec.cost_savings.optimized_safety_stock
          = rec.safety_stock.safety_stock.map (fun s => s * 7) ∧
      (∀ c o, rec.cost_savings.current_safety_stock = some c →
        rec.cost_savings.optimized_safety_stock = some o →
        rec.cost_savings.reduction = some (c - o)) ∧
      (∀ c r0, rec.cost_savings.current_safety_stock = some c →
        rec.cost_savings.reduction = some r0 → c ≠ 0 →
        rec.cost_savings.reduction_percentage = some (r0 / c * 100))

/-- C3 counterexample: estimate_cost_savings always recomputes the safety
stock with the DEFAULT lead time of 7 days, so in a call with lead time 4
the optimized figure disagrees with the safety-stock value of that same
call rescaled by 7: on the series 0, 14 the two differ by a factor
sqrt 7 versus sqrt 4. -/
theorem C3_counterexample : ¬ C3Claim := by
  intro hclaim
  have h2 := (hclaim ppfAtNegOne ppfAtNegOne_sound (stdNormalCDF (-1))
    [some 0, some 14] (.ok ⟨[0, 14], fun n => List.replicate n 1⟩) 1 4 _ rfl).2.1
  simp only [get_recommendations, forecast_demand, estimate_cost_savings,
    calculate_safety_stock, seriesMean_zero_fourteen, seriesStd_zero_fourteen,
    ppfAtNegOne_eval, npSqrt] at h2
  exact absurd h2 (by norm_num)

/-- C3 amended: the cost savings block of get_recommendations has
current = weekly mean times 1.5, reduction = current - optimized with no
clamping at zero, and reduction_percentage = reduction / current * 100;
but the optimized figure is the safety stock recomputed with the DEFAULT
lead time of 7 days and rescaled by 7, regardless of the lead time of the
surrounding call. -/
theorem C3_cost_savings_uses_default_lead_time (ppf : ℝ → Option ℝ) (sl : ℝ)
    (ts : List (Option ℝ)) (fit : Except String FittedModel) (steps : ℕ)
    (L : ℝ) (rec : Recommendation)
    (hrec : get_recommendations ppf sl ts fit steps L = .ok rec) :
    rec.cost_savings.current_safety_stock = (seriesMean ts).map (fun m => m * 1.5) ∧
    rec.cost_savings.optimized_safety_stock
      = (calculate_safety_stock ppf sl ts 7).safety_stock.map (fun s => s * 7) ∧
    (∀ c o, rec.cost_savings.current_safety_stock = some c →
      rec.cost_savings.optimized_safety_stock = some o →
      rec.cost_savings.reduction = some (c - o)) ∧
    (∀ c r0, rec.cost_savings.current_safety_stock = some c →
      rec.cost_savings.reduction = some r0 → c ≠ 0 →
      rec.cost_savings.reduction_percentage = some (r0 / c * 100)) := by
  rcases fit with e | m
  · exact absurd hrec (by simp [get_recommendations, forecast_demand])
  · simp only [get_recommendations, forecast_demand, Except.ok.injEq] at hrec
    subst hrec
    refine ⟨rfl, rfl, ?_, ?_⟩
    · intro c o hc ho
      simp only [estimate_cost_savings] at hc ho ⊢
      rw [hc, ho]
      rfl
    · intro c r0 hc hr hc0
      simp only [estimate_cost_savings] at hc hr ⊢
      rw [hr, hc]
      simp [hc0]

/-- Witness for the amended C3 on the constant series 14, 14 with lead
time 4: current is 21, the optimized figure is 0 (zero variance), the
reduction is 21 and the reduction percentage is 100. -/
theorem C3_cost_savings_uses_default_lead_time_witness :
    (get_recommendations (fun _ => some 2) 0.95 [some 14, some 14]
        (.ok ⟨[14, 14], fun n => List.replicate n 14⟩) 1 4).map
      (fun r => r.cost_savings.current_safety_stock) = .ok (some 21) ∧
    (get_recommendations (fun _ => some 2) 0.95 [some 14, some 14]
        (.ok ⟨[14, 14], fun n => List.replicate n 14⟩) 1 4).map
      (fun r => r.cost_savings.reduction) = .ok (some 21) ∧
    (get_recommendations (fun _ => some 2) 0.95 [some 14, some 14]
        (.ok ⟨[14, 14], fun n => List.replicate n 14⟩) 1 4).map
      (fun r => r.cost_savings.reduction_percentage) = .ok (some 100) := by
  obtain ⟨rec, hrec⟩ : ∃ rec, get_recommendations (fun _ => some 2) 0.95
      [some 14, some 14] (.ok ⟨[14, 14], fun n => List.replicate n 14⟩) 1 4
        = .ok rec := ⟨_, rfl⟩
  have h := C3_cost_savings_uses_default_lead_time (fun _ => some 2) 0.95
    [some 14, some 14] (.ok ⟨[14, 14], fun n => List.replicate n 14⟩) 1 4 rec hrec
  have hv : vals [some (14 : ℝ), some 14] = [14, 14] := by simp [vals]
  have hm : seriesMean [some 14, some 14] = some 14 := by
    unfold seriesMean
    rw [hv]
    norm_num [listMean]
  have hs : seriesStd [some 14, some 14] = some 0 := by
    unfold seriesStd
    rw [hv]
    norm_num [listMean]
  have hcur : rec.cost_savings.current_safety_stock = some 21 := by
    rw [h.1, hm]
    norm_num
  have hopt : rec.cost_savings.optimized_safety_stock = some 0 := by
    rw [h.2.1]
    simp [calculate_safety_stock, hm, hs, npSqrt]
    norm_num
  have hred : rec.cost_savings.reduction = some 21 := by
    rw [h.2.2.1 21 0 hcur hopt]
    norm_num
  have hpct : rec.cost_savings.reduction_percentage = some 100 := by
    rw [h.2.2.2 21 21 hcur hred (by norm_num)]
    norm_num
  rw [hrec]
  simp only [Except.map]
  rw [hcur, hred, hpct]
  exact ⟨rfl, rfl, rfl⟩

/-- The claim C5 as stated: for a series of non-negative demand values, any
service level strictly inside the unit interval and a non-negative lead
time, the safety stock is non-negative, zero only under zero variance, and
the reorder point is at least the safety stock. -/
def C5Claim : Prop :=
  ∀ (ppf : ℝ → Option ℝ), PpfSound ppf → ∀ (sl : ℝ), 0 < sl → sl < 1 →
    ∀ (ts : List (Option ℝ)) (L : ℝ), (∀ x ∈ vals ts, 0 ≤ x) → 0 ≤ L →
      (∀ v, (calculate_safety_stock ppf sl ts L).safety_stock = some v → 0 ≤ v) ∧
      (∀ v, (calculate_safety_stock ppf sl ts L).safety_stock = some v → v = 0 →
        (((vals ts).map (fun x => (x - listMean (vals ts)) ^ 2)).sum) = 0) ∧
      (∀ v w, (calculate_safety_stock ppf sl ts L).safety_stock = some v →
        (calculate_safety_stock ppf sl ts L).reorder_point = some w → v ≤ w)

/-- C5 counterexample: at the valid service level whose standard normal
quantile is -1 (a probability of about 0.159, strictly between 0 and 1),
the z-score is negative and on the non-negative series 0, 14 with lead
time 4 the safety stock comes out strictly negative. -/
theorem C5_counterexample : ¬ C5Claim := by
  intro hclaim
  have hnn : ∀ x ∈ vals [some (0 : ℝ), some 14], 0 ≤ x := by
    rw [vals_zero_fourteen]
    intro x hx
    rcases List.mem_cons.mp hx with rfl | hx2
    · norm_num
    · rw [List.mem_singleton] at hx2
      subst hx2
      norm_num
  have h1 := (hclaim ppfAtNegOne ppfAtNegOne_sound (stdNormalCDF (-1))
    (stdNormalCDF_pos (-1)) (stdNormalCDF_lt_one (-1))
    [some 0, some 14] 4 hnn (by norm_num)).1
  have hss : (calculate_safety_stock ppfAtNegOne (stdNormalCDF (-1))
      [some 0, some 14] 4).safety_stock
      = some (-1 * (Real.sqrt 98 / 7) * Real.sqrt 4) := by
    simp only [calculate_safety_stock, seriesMean_zero_fourteen,
      seriesStd_zero_fourteen, ppfAtNegOne_eval, npSqrt]
    norm_num
  have hv := h1 _ hss
  have h4 : Real.sqrt 4 = 2 := by
    rw [show (4 : ℝ) = 2 ^ 2 by norm_num, Real.sqrt_sq (by norm_num : (0 : ℝ) ≤ 2)]
  have h98 : (0 : ℝ) < Real.sqrt 98 := Real.sqrt_pos.mpr (by norm_num)
  rw [h4] at hv
  nlinarith [hv, h98]

lemma safety_stock_shape {ppf : ℝ → Option ℝ} {sl L z v : ℝ}
    {ts : List (Option ℝ)} (hz : ppf sl = some z) (hL : 0 ≤ L)
    (hv : (calculate_safety_stock ppf sl ts L).safety_stock = some v) :
    ∃ s, seriesStd ts = some s ∧ v = z * (s / 7) * Real.sqrt L := by
  have hsq : npSqrt L = some (Real.sqrt L) := by
    unfold npSqrt
    rw [if_neg (not_lt.mpr hL)]
  rcases hstd : seriesStd ts with _ | s
  · simp [calculate_safety_stock, hz, hstd] at hv
  · refine ⟨s, rfl, ?_⟩
    simp only [calculate_safety_stock, hz, hstd, hsq, Option.map_some,
      Option.some_bind] at hv
    exact (Option.some.inj hv).symm

lemma reorder_point_shape {ppf : ℝ → Option ℝ} {sl L v w : ℝ}
    {ts : List (Option ℝ)}
    (hv : (calculate_safety_stock ppf sl ts L).safety_stock = some v)
    (hw : (calculate_safety_stock ppf sl ts L).reorder_point = some w) :
    ∃ m, seriesMean ts = some m ∧ w = m / 7 * L + v := by
  rcases hmean : seriesMean ts with _ | m
  · simp [calculate_safety_stock, hmean] at hw
  · refine ⟨m, rfl, ?_⟩
    simp only [calculate_safety_stock] at hv
    simp only [calculate_safety_stock, hmean, hv, Option.map_some,
      Option.some_bind] at hw
    exact (Option.some.inj hw).symm

lemma seriesStd_nonneg {ts : List (Option ℝ)} {s : ℝ}
    (h : seriesStd ts = some s) : 0 ≤ s := by
  rw [(seriesStd_some h).2]
  exact Real.sqrt_nonneg _

lemma seriesMean_listMean {ts : List (Option ℝ)} {m : ℝ}
    (h : seriesMean ts = some m) : m = listMean (vals ts) := by
  unfold seriesMean at h
  by_cases hlen : (vals ts).length = 0
  · rw [if_pos hlen] at h
    exact absurd h (by simp)
  · rw [if_neg hlen] at h
    exact (Option.some.inj h).symm

/-- C5 amended: with the z-score finite and the service level at least one
half (so that the standard normal quantile is non-negative), a series of
non-negative demand values and a non-negative lead time give a
non-negative safety stock and a reorder point at least the safety stock;
and when the service level is strictly above one half and the lead time is
strictly positive, a zero safety stock forces zero demand variance.  For
service levels below one half the code produces a negative safety stock,
as the counterexample shows. -/
theorem C5_safety_stock_nonneg_amended (ppf : ℝ → Option ℝ) (sl z L : ℝ)
    (ts : List (Option ℝ)) (hsound : PpfSound ppf) (hz : ppf sl = some z)
    (hhalf : 1 / 2 ≤ sl) (hnn : ∀ x ∈ vals ts, 0 ≤ x) (hL : 0 ≤ L) :
    (∀ v, (calculate_safety_stock ppf sl ts L).safety_stock = some v → 0 ≤ v) ∧
    (∀ v w, (calculate_safety_stock ppf sl ts L).safety_stock = some v →
      (calculate_safety_stock ppf sl ts L).reorder_point = some w → v ≤ w) ∧
    (1 / 2 < sl → 0 < L →
      ∀ v, (calculate_safety_stock ppf sl ts L).safety_stock = some v → v = 0 →
        (((vals ts).map (fun x => (x - listMean (vals ts)) ^ 2)).sum) = 0) := by
  have hznn : 0 ≤ z := ppf_nonneg_of_half_le hsound hz hhalf
  refine ⟨?_, ?_, ?_⟩
  · intro v hv
    obtain ⟨s, hstd, rfl⟩ := safety_stock_shape hz hL hv
    have hs := seriesStd_nonneg hstd
    have h7 : (0 : ℝ) ≤ s / 7 := by positivity
    exact mul_nonneg (mul_nonneg hznn h7) (Real.sqrt_nonneg L)
  · intro v w hv hw
    obtain ⟨m, hmean, rfl⟩ := reorder_point_shape hv hw
    have hm : 0 ≤ m := by
      rw [seriesMean_listMean hmean]
      exact listMean_nonneg hnn
    have : 0 ≤ m / 7 * L := mul_nonneg (by positivity) hL
    linarith
  · intro hhalf2 hL2 v hv hv0
    obtain ⟨s, hstd, hshape⟩ := safety_stock_shape hz hL hv
    have hzpos : 0 < z := ppf_pos_of_half_lt hsound hz hhalf2
    have hsqL : 0 < Real.sqrt L := Real.sqrt_pos.mpr hL2
    have hs0 : s = 0 := by
      rcases mul_eq_zero.mp (hshape ▸ hv0) with h | h
      · rcases mul_eq_zero.mp h with h2 | h2
        · exact absurd h2 hzpos.ne'
        · have : s = 0 := by
            field_simp at h2
            exact h2
          exact this
      · exact absurd h hsqL.ne'
    obtain ⟨hlen2, hsq⟩ := seriesStd_some hstd
    rw [hs0] at hsq
    have hq0 : (((vals ts).map (fun x => (x - listMean (vals ts)) ^ 2)).sum)
        / (((vals ts).length : ℝ) - 1) = 0 := by
      have hqnn : 0 ≤ (((vals ts).map (fun x => (x - listMean (vals ts)) ^ 2)).sum)
          / (((vals ts).length : ℝ) - 1) := by
        apply div_nonneg
        · apply List.sum_nonneg
          intro a ha
          obtain ⟨x, _, rfl⟩ := List.mem_map.mp ha
          exact sq_nonneg _
        · have : (2 : ℝ) ≤ (vals ts).length := by exact_mod_cast hlen2
          linarith
      exact ((Real.sqrt_eq_zero hqnn).mp hsq.symm)
    have hden : ((vals ts).length : ℝ) - 1 ≠ 0 := by
      have : (2 : ℝ) ≤ (vals ts).length := by exact_mod_cast hlen2
      linarith
    rcases div_eq_zero_iff.mp hq0 with h | h
    · exact h
    · exact absurd h hden

/-- A sound model of norm.ppf defined at the single probability whose
standard normal quantile is 1. -/
noncomputable def ppfAtOne : ℝ → Option ℝ :=
  fun s => if s = stdNormalCDF 1 then some 1 else none

lemma ppfAtOne_sound : PpfSound ppfAtOne := by
  intro s z h
  unfold ppfAtOne at h
  by_cases hc : s = stdNormalCDF 1
  · rw [if_pos hc] at h
    rw [← Option.some.inj h, hc]
  · rw [if_neg hc] at h
    exact absurd h (by simp)

lemma ppfAtOne_eval : ppfAtOne (stdNormalCDF 1) = some 1 := by
  unfold ppfAtOne
  rw [if_pos rfl]

lemma stdNormalCDF_one_gt_half : 1 / 2 < stdNormalCDF 1 := by
  have h := stdNormalCDF_strictMono (show (0 : ℝ) < 1 by norm_num)
  rw [stdNormalCDF_zero] at h
  exact h

/-- Witness for the amended C5: at the service level whose quantile is 1,
on the non-negative series 0, 14 with lead time 4, the amended properties
hold. -/
theorem C5_safety_stock_nonneg_amended_witness :
    PpfSound ppfAtOne ∧
    ppfAtOne (stdNormalCDF 1) = some 1 ∧
    1 / 2 ≤ stdNormalCDF 1 ∧
    (∀ x ∈ vals [some (0 : ℝ), some 14], 0 ≤ x) ∧
    (0 : ℝ) ≤ 4 ∧
    ((∀ v, (calculate_safety_stock ppfAtOne (stdNormalCDF 1)
        [some 0, some 14] 4).safety_stock = some v → 0 ≤ v) ∧
     (∀ v w, (calculate_safety_stock ppfAtOne (stdNormalCDF 1)
        [some 0, some 14] 4).safety_stock = some v →
       (calculate_safety_stock ppfAtOne (stdNormalCDF 1)
        [some 0, some 14] 4).reorder_point = some w → v ≤ w) ∧
     (1 / 2 < stdNormalCDF 1 → (0 : ℝ) < 4 →
       ∀ v, (calculate_safety_stock ppfAtOne (stdNormalCDF 1)
          [some 0, some 14] 4).safety_stock = some v → v = 0 →
         (((vals [some (0 : ℝ), some 14]).map
           (fun x => (x - listMean (vals [some (0 : ℝ), some 14])) ^ 2)).sum) = 0)) := by
  have hnn : ∀ x ∈ vals [some (0 : ℝ), some 14], 0 ≤ x := by
    rw [vals_zero_fourteen]
    intro x hx
    rcases List.mem_cons.mp hx with rfl | hx2
    · norm_num
    · rw [List.mem_singleton] at hx2
      subst hx2
      norm_num
  have h := C5_safety_stock_nonneg_amended ppfAtOne (stdNormalCDF 1) 1 4
    [some 0, some 14] ppfAtOne_sound ppfAtOne_eval
    stdNormalCDF_one_gt_half.le hnn (by norm_num)
  exact ⟨ppfAtOne_sound, ppfAtOne_eval, stdNormalCDF_one_gt_half.le, hnn,
    by norm_num, h⟩

lemma resid_none_not_mem : ∀ (ts : List (Option ℝ)) (fv : List ℝ), none ∉ ts →
    none ∉ List.zipWith (fun a b => Option.map (fun x => x - b) a) ts fv := by
  intro ts
  induction ts with
  | nil =>
    intro fv h
    simp
  | cons a t ih =>
    intro fv h
    cases fv with
    | nil => simp
    | cons b fv2 =>
      have hh : a ≠ none := fun he => h (he ▸ List.mem_cons_self a t)
      have ht : none ∉ t := fun hm => h (List.mem_cons_of_mem a hm)
      simp only [List.zipWith_cons_cons, List.mem_cons]
      push_neg
      refine ⟨?_, ih fv2 ht⟩
      rcases a with _ | x
      · exact absurd rfl hh
      · simp

/-- C2: for every successful forecast (fitting succeeded, which requires a
non-empty gap-free series aligned with the fitted values) with a service
level strictly inside the unit interval and a finite z-score, the lower
and upper bound sequences have the same length as the forecast sequence
and satisfy lower_bound i ≤ forecast i ≤ upper_bound i at every index of
the horizon. -/
theorem C2_forecast_bounds (ppf : ℝ → Option ℝ) (sl : ℝ) (ts : List (Option ℝ))
    (mdl : FittedModel) (steps : ℕ) (z : ℝ) (fd : ForecastData)
    (hsound : PpfSound ppf) (h0 : 0 < sl) (_h1 : sl < 1)
    (hz : ppf ((1 + sl) / 2) = some z)
    (hts : ts ≠ []) (hnone : none ∉ ts) (hlen : ts.length = mdl.fittedvalues.length)
    (hfd : forecast_demand ppf sl ts (.ok mdl) steps = .ok fd) :
    fd.lower_bound.length = fd.forecast.length ∧
    fd.upper_bound.length = fd.forecast.length ∧
    ∀ i, i < fd.forecast.length →
      ∃ lo hi, fd.lower_bound.getD i none = some lo ∧
        fd.upper_bound.getD i none = some hi ∧
        lo ≤ fd.forecast.getD i 0 ∧ fd.forecast.getD i 0 ≤ hi := by
  have hzpos : 0 < z := ppf_pos_of_half_lt hsound hz (by linarith)
  simp only [forecast_demand, Except.ok.injEq] at hfd
  set residuals := List.zipWith (fun a b => Option.map (fun x => x - b) a)
    ts mdl.fittedvalues with hres
  have hrne : ¬(residuals.length = 0 ∨ none ∈ residuals) := by
    push_neg
    constructor
    · rw [hres, List.length_zipWith, ← hlen, min_self]
      exact fun hcontra => hts (List.length_eq_zero.mp hcontra)
    · exact resid_none_not_mem ts mdl.fittedvalues hnone
  have hstd : npStdList residuals = some (Real.sqrt
      (((vals residuals).map (fun x => (x - listMean (vals residuals)) ^ 2)).sum
        / (vals residuals).length)) := by
    unfold npStdList
    rw [if_neg hrne]
  set serr := Real.sqrt
    (((vals residuals).map (fun x => (x - listMean (vals residuals)) ^ 2)).sum
      / (vals residuals).length) with hserr
  have hmnn : 0 ≤ z * serr := mul_nonneg hzpos.le (Real.sqrt_nonneg _)
  rw [hz, hstd] at hfd
  simp only [Option.pure_def, Option.bind_eq_bind, Option.some_bind,
    Option.map_some] at hfd
  subst hfd
  refine ⟨List.length_map _ _, List.length_map _ _, ?_⟩
  intro i hi
  have hi2 : i < (mdl.fcFun steps).length := hi
  have hlow : ((mdl.fcFun steps).map (fun x => some (x - z * serr))).getD i none
      = some ((mdl.fcFun steps).getD i 0 - z * serr) := by
    rw [List.getD_eq_getElem?_getD, List.getElem?_map,
      List.getElem?_eq_getElem hi2, List.getD_eq_getElem?_getD,
      List.getElem?_eq_getElem hi2]
    rfl
  have hup : ((mdl.fcFun steps).map (fun x => some (x + z * serr))).getD i none
      = some ((mdl.fcFun steps).getD i 0 + z * serr) := by
    rw [List.getD_eq_getElem?_getD, List.getElem?_map,
      List.getElem?_eq_getElem hi2, List.getD_eq_getElem?_getD,
      List.getElem?_eq_getElem hi2]
    rfl
  exact ⟨(mdl.fcFun steps).getD i 0 - z * serr,
    (mdl.fcFun steps).getD i 0 + z * serr, hlow, hup,
    by linarith, by linarith⟩

/-- The service level whose two-sided interval z-score, at
(1 + service_level) / 2, is exactly 1. -/
noncomputable def slMid : ℝ := 2 * stdNormalCDF 1 - 1

lemma slMid_pos : 0 < slMid := by
  unfold slMid
  have h := stdNormalCDF_one_gt_half
  linarith

lemma slMid_lt_one : slMid < 1 := by
  unfold slMid
  have h := stdNormalCDF_lt_one 1
  linarith

lemma ppfAtOne_eval_mid : ppfAtOne ((1 + slMid) / 2) = some 1 := by
  unfold ppfAtOne slMid
  rw [if_pos (by ring)]

/-- The fitted model used in the C2 witness: fitted values matching the
constant series 5, 5 and a constant forecast of 3. -/
def mdlC2 : FittedModel := ⟨[5, 5], fun n => List.replicate n 3⟩

/-- The forecast record produced on the witness input: zero residual
spread, hence zero margin and bounds equal to the forecasts. -/
def fdC2 : ForecastData := ⟨[3, 3], [some 3, some 3], [some 3, some 3], some 5, some 0⟩

lemma forecast_demand_witness_eval :
    forecast_demand ppfAtOne slMid [some 5, some 5] (.ok mdlC2) 2 = .ok fdC2 := by
  have hv5 : vals [some (5 : ℝ), some 5] = [5, 5] := by simp [vals]
  have hmean5 : seriesMean [some 5, some 5] = some 5 := by
    unfold seriesMean
    rw [hv5]
    norm_num [listMean]
  have hstd5 : seriesStd [some 5, some 5] = some 0 := by
    unfold seriesStd
    rw [hv5]
    norm_num [listMean]
  have hresid : List.zipWith (fun a b => Option.map (fun x => x - b) a)
      [some (5 : ℝ), some 5] [5, 5] = [some 0, some 0] := by
    norm_num
  have hnstd : npStdList [some (0 : ℝ), some 0] = some 0 := by
    unfold npStdList
    rw [if_neg (by simp)]
    simp [vals, listMean]
  simp only [forecast_demand, mdlC2, fdC2, hresid, hnstd, ppfAtOne_eval_mid,
    hmean5, hstd5, Option.pure_def, Option.bind_eq_bind, Option.some_bind,
    Option.map_some, Except.ok.injEq]
  norm_num [List.replicate]

/-- Witness for C2 on the gap-free two-point series 5, 5 with the service
level slMid and a two-step constant forecast: the bounds coincide with the
forecasts (zero residual spread) and the claimed inequalities hold. -/
theorem C2_forecast_bounds_witness :
    PpfSound ppfAtOne ∧ 0 < slMid ∧ slMid < 1 ∧
    ppfAtOne ((1 + slMid) / 2) = some 1 ∧
    ([some (5 : ℝ), some 5] ≠ ([] : List (Option ℝ))) ∧
    (none ∉ [some (5 : ℝ), some 5]) ∧
    ([some (5 : ℝ), some 5].length = mdlC2.fittedvalues.length) ∧
    forecast_demand ppfAtOne slMid [some 5, some 5] (.ok mdlC2) 2 = .ok fdC2 ∧
    (fdC2.lower_bound.length = fdC2.forecast.length ∧
     fdC2.upper_bound.length = fdC2.forecast.length ∧
     ∀ i, i < fdC2.forecast.length →
       ∃ lo hi, fdC2.lower_bound.getD i none = some lo ∧
         fdC2.upper_bound.getD i none = some hi ∧
         lo ≤ fdC2.forecast.getD i 0 ∧ fdC2.forecast.getD i 0 ≤ hi) := by
  have h := C2_forecast_bounds ppfAtOne slMid [some 5, some 5] mdlC2 2 1 fdC2
    ppfAtOne_sound slMid_pos slMid_lt_one ppfAtOne_eval_mid
    (by simp) (by simp) (by simp [mdlC2]) forecast_demand_witness_eval
  exact ⟨ppfAtOne_sound, slMid_pos, slMid_lt_one, ppfAtOne_eval_mid,
    by simp, by simp, by simp [mdlC2], forecast_demand_witness_eval, h⟩
